import Mathlib

/-!
Verification of the SimpleFlaskApp to-do application (src/ToDoApp.py).

The application keeps a module-level list `tasks` of task description
strings and exposes four HTTP handlers:

* `add_task` (POST /add): reads the optional `task` form field and appends
  it to the list when it is a non-empty string, then redirects to `/`;
* `delete_task` (POST /delete/<int:task_id>): pops the task at position
  `task_id` when `0 <= task_id < len(tasks)`, then redirects to `/`;
* `health` (GET /health): returns the JSON payload
  `{"status": "healthy", "tasks_count": len(tasks)}` with status 200;
* `index` (GET /): renders the list and mutates nothing.

The store is embedded as `List String`; each handler is a pure function
from the store to the new store paired with its response.
-/

namespace ToDoApp

/-- An HTTP redirect response: status code plus the Location target.
Flask's `redirect(url_for("index"))` produces a 302 pointing at `/`. -/
structure Redirect where
  statusCode : Nat
  location : String
  deriving DecidableEq, Repr

/-- The URL of the index route, `url_for("index")` in the source. -/
def url_for_index : String := "/"

/-- The response `redirect(url_for("index"))` returned by the
`/add` and `/delete/<int:task_id>` handlers. -/
def redirectIndex : Redirect := { statusCode := 302, location := url_for_index }

/-- The module-level store `tasks = []`: created empty at process start. -/
def tasks : List String := []

/-- Python truthiness of `request.form.get("task")`: `None` (field absent)
and the empty string are falsy, every other string is truthy. -/
def truthy : Option String → Bool
  | none => false
  | some s => decide (s ≠ "")

/-- Embedding of `add_task` (src/ToDoApp.py:143-157): reads the optional
`task` form field, appends it to the store when truthy (`if task:`), and
returns the redirect to `/`. -/
def add_task (form : Option String) (ts : List String) : List String × Redirect :=
  match form with
  | some task => if task ≠ "" then (ts ++ [task], redirectIndex) else (ts, redirectIndex)
  | none => (ts, redirectIndex)

/-- Embedding of `delete_task` (src/ToDoApp.py:160-173): pops the task at
index `task_id` when `0 <= task_id < len(tasks)`, otherwise leaves the
store untouched; either way returns the redirect to `/`. -/
def delete_task (task_id : Int) (ts : List String) : List String × Redirect :=
  if 0 ≤ task_id ∧ task_id < (ts.length : Int) then
    (ts.eraseIdx task_id.toNat, redirectIndex)
  else
    (ts, redirectIndex)

/-- The JSON body returned by the `/health` handler. -/
structure HealthPayload where
  status : String
  tasks_count : Nat
  deriving DecidableEq, Repr

/-- Embedding of `health` (src/ToDoApp.py:176-187): returns the store it
was called on (the handler does not mutate `tasks`) together with the JSON
payload and the HTTP status code 200. -/
def health (ts : List String) : List String × HealthPayload × Nat :=
  (ts, { status := "healthy", tasks_count := ts.length }, 200)

/-- `count()`: the current length of the store, `len(tasks)`. -/
def count (ts : List String) : Nat := ts.length

/-- `list()`: the ordered tasks paired with their 0-based positions, as
produced by `enumerate(tasks)` in the index template. -/
def listTasks (ts : List String) : List (Nat × String) := ts.enum

/-- The operations a request can apply to the store. -/
inductive Op where
  | add (form : Option String)
  | delete (task_id : Int)
  | index
  | healthCheck
  deriving Repr

/-- The store mutation performed by one operation; `index` and
`healthCheck` read the store without changing it. -/
def applyOp (ts : List String) : Op → List String
  | .add form => (add_task form ts).1
  | .delete task_id => (delete_task task_id ts).1
  | .index => ts
  | .healthCheck => (health ts).1

/-- Run a sequence of operations left to right on a store. -/
def runOps (ops : List Op) (ts : List String) : List String :=
  ops.foldl applyOp ts

/-- Run a sequence of `/add` submissions (each an optional form field)
left to right on a store. -/
def runAdds (subs : List (Option String)) (ts : List String) : List String :=
  subs.foldl (fun acc sub => (add_task sub acc).1) ts

/-- The descriptions an operation appends to the store, in order: a truthy
`/add` submission appends its string, everything else appends nothing. -/
def opAppends : Op → List String
  | .add (some task) => if task ≠ "" then [task] else []
  | _ => []

/-- All descriptions appended over a sequence of operations, in order. -/
def appendedTasks (ops : List Op) : List String :=
  (ops.map opAppends).flatten

/-! ### Basic lemmas about the embedded operations -/

theorem add_task_fst_of_ne (ts : List String) (t : String) (h : t ≠ "") :
    (add_task (some t) ts).1 = ts ++ [t] := by
  simp [add_task, h]

theorem add_task_fst_none (ts : List String) : (add_task none ts).1 = ts := rfl

theorem add_task_fst_empty (ts : List String) : (add_task (some "") ts).1 = ts := by
  simp [add_task]

theorem delete_task_fst_of_lt (ts : List String) (p : Nat) (hp : p < ts.length) :
    (delete_task (p : Int) ts).1 = ts.eraseIdx p := by
  rw [delete_task, if_pos]
  · simp
  · exact ⟨Int.ofNat_nonneg p, by exact_mod_cast hp⟩

theorem eraseIdx_getElem_of_lt {α : Type} (l : List α) (i j : Nat) (h : j < i) :
    (l.eraseIdx i)[j]? = l[j]? := by
  induction l generalizing i j with
  | nil => simp
  | cons a l ih =>
    cases i with
    | zero => omega
    | succ i =>
      cases j with
      | zero => simp [List.eraseIdx]
      | succ j =>
        simp only [List.eraseIdx, List.getElem?_cons_succ]
        exact ih i j (by omega)

theorem eraseIdx_getElem_of_ge {α : Type} (l : List α) (i j : Nat) (h : i ≤ j) :
    (l.eraseIdx i)[j]? = l[j + 1]? := by
  induction l generalizing i j with
  | nil => simp
  | cons a l ih =>
    cases i with
    | zero => simp [List.eraseIdx]
    | succ i =>
      cases j with
      | zero => omega
      | succ j =>
        simp only [List.eraseIdx, List.getElem?_cons_succ]
        exact ih i j (by omega)

theorem eraseIdx_length_of_lt {α : Type} (l : List α) (i : Nat) (h : i < l.length) :
    (l.eraseIdx i).length = l.length - 1 := by
  induction l generalizing i with
  | nil => simp at h
  | cons a l ih =>
    cases i with
    | zero => simp [List.eraseIdx]
    | succ i =>
      simp only [List.eraseIdx, List.length_cons]
      rw [ih i (by simpa using h)]
      simp at h
      omega

theorem eraseIdx_append_singleton {α : Type} (l : List α) (a : α) :
    (l ++ [a]).eraseIdx l.length = l := by
  induction l with
  | nil => rfl
  | cons b l ih => simp [List.eraseIdx, ih]

theorem getElem_append_singleton_length {α : Type} (l : List α) (a : α) :
    (l ++ [a])[l.length]? = some a := by
  induction l with
  | nil => rfl
  | cons b l ih => simp

theorem add_task_length (sub : Option String) (ts : List String) :
    ((add_task sub ts).1).length = ts.length + (if truthy sub then 1 else 0) := by
  cases sub with
  | none => simp [add_task, truthy]
  | some t =>
    by_cases h : t = ""
    · simp [add_task, truthy, h]
    · simp [add_task, truthy, h]

theorem runAdds_length (subs : List (Option String)) (ts : List String) :
    (runAdds subs ts).length = ts.length + (subs.filter truthy).length := by
  induction subs generalizing ts with
  | nil => simp [runAdds]
  | cons sub subs ih =>
    show (runAdds subs ((add_task sub ts).1)).length = _
    rw [ih, add_task_length]
    by_cases h : truthy sub
    · simp only [h, if_true, List.filter_cons_of_pos, List.length_cons]
      omega
    · simp only [h, if_false, List.filter_cons_of_neg, Bool.false_eq_true,
        not_false_iff, Nat.add_zero]

/-! ### Claim theorems -/

/-- C1: for every store state and every integer position `p` with
`0 ≤ p < count()`, `removeAt(p)` (the `/delete/<task_id>` handler's store
mutation) removes exactly the task at position `p`: the count drops by
exactly one, tasks before `p` keep their positions, and every task formerly
at a position `q > p` moves to position `q - 1`. -/
theorem delete_task_in_range (ts : List String) (p : Nat) (hp : p < count ts) :
    count ((delete_task (p : Int) ts).1) = count ts - 1 ∧
    (∀ q, q < p → ((delete_task (p : Int) ts).1)[q]? = ts[q]?) ∧
    (∀ q, p < q → q < count ts → ((delete_task (p : Int) ts).1)[q - 1]? = ts[q]?) := by
  rw [delete_task_fst_of_lt ts p hp]
  refine ⟨eraseIdx_length_of_lt ts p hp, ?_, ?_⟩
  · intro q hq
    exact eraseIdx_getElem_of_lt ts p q hq
  · intro q hpq hq
    have h1 : p ≤ q - 1 := by omega
    have h2 : q - 1 + 1 = q := by omega
    rw [eraseIdx_getElem_of_ge ts p (q - 1) h1, h2]

/-- Witness for C1 at a concrete input: deleting position 1 of
`["A", "B", "C"]` yields count 2, keeps `"A"` at position 0, and moves
`"C"` from position 2 to position 1. -/
theorem delete_task_in_range_witness :
    (1 : Nat) < count ["A", "B", "C"] ∧
    (count ((delete_task ((1 : Nat) : Int) ["A", "B", "C"]).1) = count ["A", "B", "C"] - 1 ∧
    (∀ q, q < 1 → ((delete_task ((1 : Nat) : Int) ["A", "B", "C"]).1)[q]? = ["A", "B", "C"][q]?) ∧
    (∀ q, 1 < q → q < count ["A", "B", "C"] →
      ((delete_task ((1 : Nat) : Int) ["A", "B", "C"]).1)[q - 1]? = ["A", "B", "C"][q]?)) :=
  ⟨by decide, delete_task_in_range ["A", "B", "C"] 1 (by decide)⟩

/-- C2: for every store state and every out-of-range integer position
(`p < 0` or `p ≥ count()`), `removeAt(p)` is a no-op: the store is
unchanged and the handler still returns the redirect. -/
theorem delete_task_out_of_range (ts : List String) (p : Int)
    (h : p < 0 ∨ (count ts : Int) ≤ p) :
    delete_task p ts = (ts, redirectIndex) := by
  rw [delete_task, if_neg]
  intro ⟨h0, h1⟩
  simp only [count] at h
  omega

/-- Witness for C2: deleting position `-1` from the singleton store
`["X"]` leaves it unchanged. -/
theorem delete_task_out_of_range_witness :
    ((-1 : Int) < 0 ∨ (count ["X"] : Int) ≤ -1) ∧
    delete_task (-1) ["X"] = (["X"], redirectIndex) :=
  ⟨Or.inl (by decide), delete_task_out_of_range ["X"] (-1) (Or.inl (by decide))⟩

/-- C3: for every store state and every non-empty string `s`,
`append(s)` (the `/add` handler's store mutation) increases the count by
exactly one, keeps every previously stored task at its position, and
places `s` at the new last position `count() - 1`. -/
theorem add_task_appends (ts : List String) (s : String) (h : s ≠ "") :
    count ((add_task (some s) ts).1) = count ts + 1 ∧
    (∀ q, q < count ts → ((add_task (some s) ts).1)[q]? = ts[q]?) ∧
    ((add_task (some s) ts).1)[count ((add_task (some s) ts).1) - 1]? = some s := by
  rw [show (add_task (some s) ts).1 = ts ++ [s] from add_task_fst_of_ne ts s h]
  refine ⟨by simp [count], ?_, ?_⟩
  · intro q hq
    rw [List.getElem?_append, if_pos (show q < ts.length from hq)]
  · simp only [count, List.length_append, List.length_singleton,
      Nat.add_sub_cancel]
    exact getElem_append_singleton_length ts s

/-- Witness for C3: appending `"Buy milk"` to `["A"]` gives count 2,
keeps `"A"` at position 0, and puts `"Buy milk"` last. -/
theorem add_task_appends_witness :
    ("Buy milk" ≠ "") ∧
    (count ((add_task (some "Buy milk") ["A"]).1) = count ["A"] + 1 ∧
    (∀ q, q < count ["A"] → ((add_task (some "Buy milk") ["A"]).1)[q]? = ["A"][q]?) ∧
    ((add_task (some "Buy milk") ["A"]).1)[count ((add_task (some "Buy milk") ["A"]).1) - 1]? =
      some "Buy milk") :=
  ⟨by decide, add_task_appends ["A"] "Buy milk" (by decide)⟩

/-- C4: for every store state, calling the `/add` handler with the form
field absent or equal to the empty string is a no-op: the store is
unchanged and the handler still responds with the success redirect. -/
theorem add_task_empty_noop (ts : List String) :
    add_task none ts = (ts, redirectIndex) ∧ add_task (some "") ts = (ts, redirectIndex) :=
  ⟨rfl, by simp [add_task]⟩

/-- C5: for every finite sequence of `/add` submissions applied to the
initially empty store, the final count equals the number of truthy
(present and non-empty) submissions in the sequence. -/
theorem count_after_adds (subs : List (Option String)) :
    count (runAdds subs tasks) = (subs.filter truthy).length := by
  rw [count, runAdds_length]
  simp [tasks]

/-- C6: for every store state the `/health` handler returns HTTP status
200 with the payload `{"status": "healthy", "tasks_count": count()}` and
leaves the store unchanged (the first component is the store after the
call). -/
theorem health_ok (ts : List String) :
    health ts = (ts, { status := "healthy", tasks_count := count ts }, 200) := rfl

theorem applyOp_sublist_append (ts : List String) (op : Op) :
    (applyOp ts op).Sublist (ts ++ opAppends op) := by
  cases op with
  | add form =>
    cases form with
    | none => simp [applyOp, add_task, opAppends]
    | some t =>
      by_cases h : t = ""
      · simp [applyOp, add_task, opAppends, h]
      · simp [applyOp, add_task, opAppends, h]
  | delete task_id =>
    have hsub : (delete_task task_id ts).1.Sublist ts := by
      rw [delete_task]
      split
      · exact List.eraseIdx_sublist ts task_id.toNat
      · exact List.Sublist.refl ts
    simpa [applyOp, opAppends] using hsub
  | index => simp [applyOp, opAppends]
  | healthCheck => simp [applyOp, opAppends, health]

theorem runOps_sublist_append (ops : List Op) (ts : List String) :
    (runOps ops ts).Sublist (ts ++ appendedTasks ops) := by
  induction ops generalizing ts with
  | nil => simp [runOps, appendedTasks]
  | cons op ops ih =>
    have h1 : (runOps ops (applyOp ts op)).Sublist (applyOp ts op ++ appendedTasks ops) :=
      ih (applyOp ts op)
    have h2 : (applyOp ts op ++ appendedTasks ops).Sublist
        ((ts ++ opAppends op) ++ appendedTasks ops) :=
      (applyOp_sublist_append ts op).append_right (appendedTasks ops)
    have h3 : (ts ++ opAppends op) ++ appendedTasks ops = ts ++ appendedTasks (op :: ops) := by
      simp [appendedTasks]
    show (runOps ops (applyOp ts op)).Sublist _
    exact h3 ▸ (h1.trans h2)

/-- C7: every sequence of operations starting from the empty store
preserves the store invariant: the current tasks form an in-order
subsequence of the descriptions appended so far (insertion order of the
surviving tasks is preserved), and the enumerated listing pairs the tasks
with exactly the dense contiguous positions `0 .. count() - 1`. -/
theorem store_invariant (ops : List Op) :
    (runOps ops tasks).Sublist (appendedTasks ops) ∧
    (listTasks (runOps ops tasks)).map Prod.fst = List.range (count (runOps ops tasks)) :=
  ⟨by simpa [tasks] using runOps_sublist_append ops tasks,
   List.enum_map_fst (runOps ops tasks)⟩

/-- C8: the `/add` and `/delete/<task_id>` handlers each unconditionally
answer with a 302 redirect to `/`, whatever the submitted form field or
position was. -/
theorem handlers_redirect (form : Option String) (task_id : Int) (ts ts2 : List String) :
    (add_task form ts).2.statusCode = 302 ∧ (add_task form ts).2.location = "/" ∧
    (delete_task task_id ts2).2.statusCode = 302 ∧ (delete_task task_id ts2).2.location = "/" := by
  have hadd : (add_task form ts).2 = redirectIndex := by
    cases form with
    | none => rfl
    | some t =>
      by_cases h : t = ""
      · simp [add_task, h]
      · simp [add_task, h]
  have hdel : (delete_task task_id ts2).2 = redirectIndex := by
    rw [delete_task]
    split <;> rfl
  rw [hadd, hdel]
  exact ⟨rfl, rfl, rfl, rfl⟩

/-- C9: appending a non-empty string `s` and then deleting the position of
the newly added task (`count() - 1` of the new store) returns the store
to exactly its previous state. -/
theorem add_then_delete_roundtrip (ts : List String) (s : String) (h : s ≠ "") :
    (delete_task ((count ((add_task (some s) ts).1) - 1 : Nat) : Int)
      ((add_task (some s) ts).1)).1 = ts := by
  rw [show (add_task (some s) ts).1 = ts ++ [s] from add_task_fst_of_ne ts s h]
  have hlen : count (ts ++ [s]) - 1 = ts.length := by simp [count]
  rw [hlen, delete_task_fst_of_lt (ts ++ [s]) ts.length (by simp)]
  exact eraseIdx_append_singleton ts s

/-- Witness for C9: appending `"X"` to `["A"]` and then deleting
position 1 restores `["A"]`. -/
theorem add_then_delete_roundtrip_witness :
    ("X" ≠ "") ∧
    (delete_task ((count ((add_task (some "X") ["A"]).1) - 1 : Nat) : Int)
      ((add_task (some "X") ["A"]).1)).1 = ["A"] :=
  ⟨by decide, add_then_delete_roundtrip ["A"] "X" (by decide)⟩

/-- C10: the emptiness check in `add_task` is bare Python truthiness of
the string — no trimming or normalization. Any non-empty string,
including one consisting solely of whitespace such as `" "`, is appended,
and what is stored is the submitted string unmodified. -/
theorem add_task_no_trimming (ts : List String) (s : String) (h : s ≠ "") :
    (add_task (some s) ts).1 = ts ++ [s] :=
  add_task_fst_of_ne ts s h

/-- Witness for C10: the whitespace-only string `" "` is non-empty, gets
appended, and is stored byte-for-byte as `" "`. -/
theorem add_task_no_trimming_witness :
    (" " ≠ "") ∧ (add_task (some " ") []).1 = [] ++ [" "] :=
  ⟨by decide, add_task_no_trimming [] " " (by decide)⟩

end ToDoApp
